import Mathlib

/-!
Verification of the mycoder agent runtime core.

Shallow embedding of:
- `executeTools` and `processResponse` from `src/core/toolAgent.ts` (the
  tool-call dispatcher),
- the conversation-orchestration loop of `toolAgent` from the same file,
- the `execute` function of `subAgentMessageTool` from
  `src/tools/interaction/subAgentMessage.ts`.

External collaborators (the Anthropic model client, the per-tool
`executeToolCall` implementation) are modelled as oracle parameters: the
model provider becomes a function from request index to response, and the
tool executor becomes a function from a tool call to its outcome (a
returned string or a thrown exception carrying a constructor name and a
message). JavaScript single-threaded semantics make `Promise.all` over
`toolCalls.map` deliver results in request order, so the dispatcher is
embedded as an order-preserving map.
-/

namespace Mycoder

/-- A `tool_use` content block produced by the model: per
`processResponse` in toolAgent.ts it carries the tool name, the unique
call id and the structured input (kept opaque as a string). -/
structure ToolUseContent where
  name : String
  id : String
  input : String
deriving Repr, DecidableEq

/-- Outcome of running one tool call through `executeToolCall`: either a
returned string, or a thrown exception, observed in the catch block via
`error.constructor.name` and `error.message`. -/
inductive ExecOutcome where
  | ok (result : String)
  | exn (typeName : String) (message : String)
deriving Repr, DecidableEq

/-- The tool executor oracle: what `executeToolCall(call, tools, logger)`
does for each call (its implementation lives in executeToolCall.ts,
outside the dispatcher under verification). -/
def Executor : Type := ToolUseContent → ExecOutcome

/-- The diagnostic string built in the catch block of `executeTools`:
`Error: Exception thrown during tool execution.  Type: ..., Message: ...`. -/
def diagnosticOf (typeName message : String) : String :=
  "Error: Exception thrown during tool execution.  Type: " ++ typeName
    ++ ", Message: " ++ message

/-- One element of the `results` array inside `executeTools`, before the
`isComplete` flag is stripped for the message history. -/
structure RawToolResult where
  tool_use_id : String
  content : String
  isComplete : Bool
deriving Repr, DecidableEq

/-- The body of the `toolCalls.map` callback in `executeTools`: run the
call, catch a thrown exception into the diagnostic string, and tag the
result with the call id and the name-based completion flag. -/
def runCall (exec : Executor) (call : ToolUseContent) : RawToolResult :=
  let toolResult :=
    match exec call with
    | .ok r => r
    | .exn ty msg => diagnosticOf ty msg
  { tool_use_id := call.id
    content := toolResult
    isComplete := call.name == "sequenceComplete" }

/-- A `tool_result` content block as pushed into the message history
(`results.map` strips the `isComplete` flag). -/
structure ToolResultContent where
  tool_use_id : String
  content : String
deriving Repr, DecidableEq

/-- One block of a conversation message: text, a tool call, or a tool
result (the union used by `Message.content` in types.ts). -/
inductive MsgContent where
  | text (text : String)
  | tool_use (name id input : String)
  | tool_result (tool_use_id content : String)
deriving Repr, DecidableEq

/-- A conversation message: role plus content blocks. -/
structure Message where
  role : String
  content : List MsgContent
deriving Repr, DecidableEq

/-- The `ToolCallResult` record returned by `executeTools`. -/
structure ToolCallResult where
  sequenceCompleted : Bool
  completionResult : Option String
  toolResults : List ToolResultContent
deriving Repr, DecidableEq

/-- `executeTools` from toolAgent.ts: on an empty batch return the empty
result without touching the history; otherwise run every call (collecting
results in request order), strip the flags, compute `sequenceCompleted`
via `results.some` and `completionResult` via `results.find`, and push a
single user message bundling every tool result. Returns the
`ToolCallResult` together with the updated message history. -/
def executeTools (exec : Executor) (toolCalls : List ToolUseContent)
    (messages : List Message) : ToolCallResult × List Message :=
  if toolCalls.isEmpty then
    ({ sequenceCompleted := false, completionResult := none, toolResults := [] },
      messages)
  else
    let results := toolCalls.map (runCall exec)
    let toolResults := results.map (fun r =>
      { tool_use_id := r.tool_use_id, content := r.content })
    let sequenceCompleted := results.any (fun r => r.isComplete)
    let completionResult := (results.find? (fun r => r.isComplete)).map
      (fun r => r.content)
    let bundled : Message :=
      { role := "user"
        content := toolResults.map (fun r =>
          MsgContent.tool_result r.tool_use_id r.content) }
    ({ sequenceCompleted := sequenceCompleted,
        completionResult := completionResult, toolResults := toolResults },
      messages ++ [bundled])

/-- An executor whose every call throws `Error: boom`, used as the
concrete failing executor in counterexamples and witnesses. -/
def execBoom : Executor := fun _ => .exn "Error" "boom"

/-- A concrete call to the completion tool. -/
def completionCall : ToolUseContent :=
  { name := "sequenceComplete", id := "call_1", input := "" }

/-- The result at position `i` of a call whose execution threw carries the
diagnostic string as its content. -/
theorem executeTools_content_of_exn (exec : Executor)
    (toolCalls : List ToolUseContent) (messages : List Message)
    (i : Nat) (hi : i < toolCalls.length) (ty msg : String)
    (hexn : exec toolCalls[i] = .exn ty msg) :
    ((executeTools exec toolCalls messages).1.toolResults[i]?).map
        (fun r => r.content) = some (diagnosticOf ty msg) := by
  have hne : toolCalls.isEmpty = false := by
    cases toolCalls with
    | nil => exact absurd hi (by simp)
    | cons a l => rfl
  simp only [executeTools, hne, Bool.false_eq_true, if_false,
    List.getElem?_map, List.getElem?_eq_getElem hi, Option.map_some]
  simp [runCall, hexn]

/-- C1. For every batch of tool-call requests and every executor (hence
whatever mix of returns and throws the executions produce), `executeTools`
returns exactly one result per request, in request order, with each
result's `tool_use_id` equal to the id of the request it answers: the list
of result ids is exactly the list of request ids, so a thrown execution
never removes a call from the batch nor aborts the others — and each
thrown execution is encoded as that call's textual result content. -/
theorem executeTools_one_result_per_request (exec : Executor)
    (toolCalls : List ToolUseContent) (messages : List Message) :
    ((executeTools exec toolCalls messages).1.toolResults.map
        (fun r => r.tool_use_id))
      = toolCalls.map (fun c => c.id)
    ∧ ∀ (i : Nat) (hi : i < toolCalls.length) (ty msg : String),
        exec toolCalls[i] = .exn ty msg →
        ((executeTools exec toolCalls messages).1.toolResults[i]?).map
          (fun r => r.content) = some (diagnosticOf ty msg) := by
  constructor
  · unfold executeTools
    by_cases h : toolCalls.isEmpty
    · simp [h, List.isEmpty_iff.mp h]
    · simp [h, runCall, List.map_map, Function.comp]
  · intro i hi ty msg hexn
    exact executeTools_content_of_exn exec toolCalls messages i hi ty msg hexn

/-- A concrete two-call batch against the all-throwing executor, for the
C1 witness. -/
def twoCallBatch : List ToolUseContent :=
  [{ name := "toolA", id := "id1", input := "" },
    { name := "toolB", id := "id2", input := "" }]

/-- C1 witness: the dispatcher applied to a concrete two-call batch whose
executions both throw — two results, ids `id1, id2` in order, with the
inner hypothesis discharged at index 0. -/
theorem executeTools_one_result_per_request_witness :
    (((executeTools execBoom twoCallBatch []).1.toolResults.map
          (fun r => r.tool_use_id))
        = twoCallBatch.map (fun c => c.id)
      ∧ ∀ (i : Nat) (hi : i < twoCallBatch.length) (ty msg : String),
          execBoom twoCallBatch[i] = .exn ty msg →
          ((executeTools execBoom twoCallBatch []).1.toolResults[i]?).map
            (fun r => r.content) = some (diagnosticOf ty msg))
    ∧ (0 < twoCallBatch.length
        ∧ execBoom ⟨"toolA", "id1", ""⟩ = .exn "Error" "boom")
    ∧ ((executeTools execBoom twoCallBatch []).1.toolResults[0]?).map
        (fun r => r.content) = some (diagnosticOf "Error" "boom") :=
  have h01 : 0 < twoCallBatch.length := by decide
  ⟨executeTools_one_result_per_request execBoom twoCallBatch [],
    ⟨h01, by decide⟩,
    (executeTools_one_result_per_request execBoom twoCallBatch []).2
      0 h01 "Error" "boom" rfl⟩

/-- C2 counterexample. A batch holding a single `sequenceComplete` call
whose execution throws: the result content is the diagnostic string (the
call failed), yet `sequenceCompleted` is `true` — the completion flag IS
set on the failed call, because `isComplete` tests only the tool name,
contradicting the claim that a failed completion call never marks the
sequence completed. -/
theorem executeTools_thrown_completion_still_completes :
    (executeTools execBoom [completionCall] []).1.sequenceCompleted = true
    ∧ ((executeTools execBoom [completionCall] []).1.toolResults.map
        (fun r => r.content)) = [diagnosticOf "Error" "boom"] :=
  ⟨rfl, rfl⟩

/-- The `sequenceCompleted` computation only looks at tool names: the
per-call `isComplete` flag is `call.name === "sequenceComplete"`, whatever
the execution outcome. -/
theorem any_isComplete_eq_any_name (exec : Executor)
    (l : List ToolUseContent) :
    (l.map (runCall exec)).any (fun r => r.isComplete)
      = l.any (fun c => c.name == "sequenceComplete") := by
  induction l with
  | nil => rfl
  | cons a l ih => simp only [List.map_cons, List.any_cons, ih]; rfl

/-- C2 amended. For every tool call whose execution throws, the dispatcher
converts the exception into a result whose content is the diagnostic
string naming the exception type and message; however, the completion flag
is computed from the tool name alone (`call.name === "sequenceComplete"`),
independent of success or failure, so `sequenceCompleted` equals "some
call in the batch is named sequenceComplete" — in particular a
`sequenceComplete` call whose execution throws still marks the sequence as
completed. -/
theorem executeTools_exn_diagnostic (exec : Executor)
    (toolCalls : List ToolUseContent) (messages : List Message)
    (i : Nat) (hi : i < toolCalls.length) (ty msg : String)
    (hexn : exec toolCalls[i] = .exn ty msg) :
    ((executeTools exec toolCalls messages).1.toolResults[i]?).map
        (fun r => r.content) = some (diagnosticOf ty msg)
    ∧ (executeTools exec toolCalls messages).1.sequenceCompleted
        = toolCalls.any (fun c => c.name == "sequenceComplete") := by
  have hne : toolCalls.isEmpty = false := by
    cases toolCalls with
    | nil => exact absurd hi (by simp)
    | cons a l => rfl
  constructor
  · exact executeTools_content_of_exn exec toolCalls messages i hi ty msg hexn
  · simp only [executeTools, hne, Bool.false_eq_true, if_false]
    exact any_isComplete_eq_any_name exec toolCalls

/-- C2 amended, witness: the theorem applied to the one-call throwing
batch used by the counterexample. -/
theorem executeTools_exn_diagnostic_witness :
    (0 < [completionCall].length
      ∧ execBoom ([completionCall])[0] = .exn "Error" "boom")
    ∧ (((executeTools execBoom [completionCall] []).1.toolResults[0]?).map
          (fun r => r.content) = some (diagnosticOf "Error" "boom")
        ∧ (executeTools execBoom [completionCall] []).1.sequenceCompleted
          = [completionCall].any (fun c => c.name == "sequenceComplete")) :=
  ⟨⟨by decide, rfl⟩,
    executeTools_exn_diagnostic execBoom [completionCall] [] 0 (by decide)
      "Error" "boom" rfl⟩

/-- Token usage reported by one model response (`response.usage`). -/
structure Usage where
  input_tokens : Nat
  output_tokens : Nat
deriving Repr, DecidableEq

/-- One block of a model response's content list: text or a tool call. -/
inductive ContentBlock where
  | text (text : String)
  | tool_use (name id input : String)
deriving Repr, DecidableEq

/-- A model response as consumed by `toolAgent`: content blocks plus
reported token usage. -/
structure ModelResponse where
  content : List ContentBlock
  usage : Usage
deriving Repr, DecidableEq

/-- The `tokens` field of `ToolAgentResult`. -/
structure Tokens where
  input : Nat
  output : Nat
deriving Repr, DecidableEq

/-- The record `toolAgent`'s promise resolves with. -/
structure ToolAgentResult where
  result : String
  tokens : Tokens
  interactions : Nat
deriving Repr, DecidableEq

/-- Events pushed on the `outMessages` readable stream; `endOfStream` is
the `outMessages.push(null)` that closes the stream. -/
inductive OutEvent where
  | user (content : String)
  | assistant (content : String)
  | complete (result : ToolAgentResult)
  | error (message : String)
  | endOfStream
deriving Repr, DecidableEq

/-- How the `done` promise settles: resolved with a result or rejected
with an error message. -/
inductive Outcome where
  | resolved (r : ToolAgentResult)
  | rejected (message : String)
deriving Repr, DecidableEq

/-- Observable trace of one `toolAgent` run: the events pushed on
`outMessages` in order, how `done` settled, how many model requests
(`client.messages.create` calls) were issued, and the final message
history. -/
structure RunResult where
  events : List OutEvent
  outcome : Outcome
  requests : Nat
  messages : List Message
deriving Repr, DecidableEq

/-- `processResponse` from toolAgent.ts: split the response content into
the full block list (for the assistant message) and the tool calls. -/
def processResponse (response : ModelResponse) :
    List MsgContent × List ToolUseContent :=
  (response.content.map (fun b =>
      match b with
      | .text t => MsgContent.text t
      | .tool_use n id inp => MsgContent.tool_use n id inp),
    response.content.filterMap (fun b =>
      match b with
      | .text _ => none
      | .tool_use n id inp => some { name := n, id := id, input := inp }))

/-- The concatenated text of the assistant's content blocks
(`content.filter(text).map(text).join("\n")`). -/
def assistantTextOf (content : List MsgContent) : String :=
  String.intercalate "\n" (content.filterMap (fun b =>
    match b with
    | .text t => some t
    | _ => none))

/-- Result string resolved when a model response has empty content. -/
def emptyResponseResult : String :=
  "Agent returned empty message implying it is done its given task"

/-- Fallback result string when the sequence completed but the completion
result is absent (`completionResult ?? ...`). -/
def emptyCompletionFallback : String :=
  "Sequence explicitly completed with an empty result"

/-- Sentinel result string when the iteration cap is reached. -/
def maxIterationsResult : String :=
  "Maximum sub-agent iterations reached without successful completion"

/-- Modelled from the spec: the message text produced by
`getAnthropicApiKeyError()` in `src/utils/errors.ts`, a file not included
in the sources; the spec only requires it to describe the missing
credential, and no claim depends on its exact wording. -/
def getAnthropicApiKeyError : String :=
  "ANTHROPIC_API_KEY environment variable is not set"

/-- The `for` loop of `toolAgent`, as a recursion on remaining iterations.
`i` is the index of the next model request (so also the number of requests
issued so far); the provider is the oracle `responses`, the `i`-th request
returning `responses i`. Each iteration: issue one request; on empty
content resolve with the empty-response result (note: before adding this
response's usage to the totals); otherwise accumulate usage, append the
assistant message, emit the assistant event when the concatenated text is
non-empty (JavaScript truthiness of the joined string), dispatch the tool
calls, and either resolve on completion or continue. Exhausted fuel is the
loop falling through to the maximum-iterations resolution. -/
def runLoop (responses : Nat → ModelResponse) (exec : Executor)
    (i fuel : Nat) (messages : List Message)
    (inTok outTok inter : Nat) (events : List OutEvent) : RunResult :=
  match fuel with
  | 0 =>
    let r : ToolAgentResult :=
      { result := maxIterationsResult
        tokens := { input := inTok, output := outTok }
        interactions := inter }
    { events := events ++ [.complete r, .endOfStream]
      outcome := .resolved r
      requests := i
      messages := messages }
  | fuel + 1 =>
    let inter := inter + 1
    let response := responses i
    if response.content.isEmpty then
      let r : ToolAgentResult :=
        { result := emptyResponseResult
          tokens := { input := inTok, output := outTok }
          interactions := inter }
      { events := events ++ [.complete r, .endOfStream]
        outcome := .resolved r
        requests := i + 1
        messages := messages }
    else
      let inTok := inTok + response.usage.input_tokens
      let outTok := outTok + response.usage.output_tokens
      let processed := processResponse response
      let content := processed.1
      let toolCalls := processed.2
      let messages := messages ++ [{ role := "assistant", content := content }]
      let assistantMessage := assistantTextOf content
      let events :=
        if assistantMessage = "" then events
        else events ++ [.assistant assistantMessage]
      let dispatched := executeTools exec toolCalls messages
      let tcr := dispatched.1
      let messages := dispatched.2
      if tcr.sequenceCompleted then
        let r : ToolAgentResult :=
          { result := tcr.completionResult.getD emptyCompletionFallback
            tokens := { input := inTok, output := outTok }
            interactions := inter }
        { events := events ++ [.complete r, .endOfStream]
          outcome := .resolved r
          requests := i + 1
          messages := messages }
      else
        runLoop responses exec (i + 1) fuel messages inTok outTok inter events

/-- `toolAgent` from toolAgent.ts: push the initial `user` event, then —
inside the done promise — check the credential: when it is absent, push an
`error` event, close the stream and reject before any model request;
otherwise build the initial message history and run the loop for at most
`maxIterations` iterations. -/
def toolAgent (apiKeyPresent : Bool) (initialPrompt : String)
    (responses : Nat → ModelResponse) (exec : Executor)
    (maxIterations : Nat) : RunResult :=
  let events := [OutEvent.user initialPrompt]
  if apiKeyPresent then
    let messages : List Message :=
      [{ role := "user", content := [MsgContent.text initialPrompt] }]
    runLoop responses exec 0 maxIterations messages 0 0 0 events
  else
    { events := events ++ [.error getAnthropicApiKeyError, .endOfStream]
      outcome := .rejected getAnthropicApiKeyError
      requests := 0
      messages := [] }

/-- C9. When the provider credential is missing, a `toolAgent` run pushes
the initial user event, then an error event carrying the configuration
error, closes the stream, and its done promise rejects with that same
error — and zero model requests are issued, i.e. the run aborts before any
model request. -/
theorem toolAgent_missing_key_fatal (initialPrompt : String)
    (responses : Nat → ModelResponse) (exec : Executor)
    (maxIterations : Nat) :
    toolAgent false initialPrompt responses exec maxIterations
      = { events := [OutEvent.user initialPrompt,
            OutEvent.error getAnthropicApiKeyError, OutEvent.endOfStream]
          outcome := .rejected getAnthropicApiKeyError
          requests := 0
          messages := [] } :=
  rfl

/-- `sequenceCompleted` is exactly "some call in the batch is named
sequenceComplete", for any executor and any batch (including the empty
batch, which takes the early-return path). -/
theorem executeTools_sequenceCompleted (exec : Executor)
    (toolCalls : List ToolUseContent) (messages : List Message) :
    (executeTools exec toolCalls messages).1.sequenceCompleted
      = toolCalls.any (fun c => c.name == "sequenceComplete") := by
  unfold executeTools
  by_cases h : toolCalls.isEmpty
  · simp [h, List.isEmpty_iff.mp h]
  · simp only [h, Bool.false_eq_true, if_false]
    exact any_isComplete_eq_any_name exec toolCalls

/-- Specification helper: the sum of the reported input-token usages of
the responses to requests `lo, lo+1, ..., lo+len-1`. -/
def sumInputUsage (responses : Nat → ModelResponse) (lo len : Nat) : Nat :=
  match len with
  | 0 => 0
  | len + 1 =>
    (responses lo).usage.input_tokens + sumInputUsage responses (lo + 1) len

/-- Specification helper: the sum of the reported output-token usages of
the responses to requests `lo, lo+1, ..., lo+len-1`. -/
def sumOutputUsage (responses : Nat → ModelResponse) (lo len : Nat) : Nat :=
  match len with
  | 0 => 0
  | len + 1 =>
    (responses lo).usage.output_tokens + sumOutputUsage responses (lo + 1) len

/-- When every response is non-empty and no batch ever names the
completion tool, the loop consumes all its fuel: it issues one request per
remaining iteration, accumulates every response's usage, and resolves with
the maximum-iterations sentinel. -/
theorem runLoop_no_completion (responses : Nat → ModelResponse)
    (exec : Executor)
    (hne : ∀ j, (responses j).content.isEmpty = false)
    (hnc : ∀ j, ((processResponse (responses j)).2.any
      (fun c => c.name == "sequenceComplete")) = false) :
    ∀ fuel i messages inTok outTok inter events,
      (runLoop responses exec i fuel messages inTok outTok inter
            events).outcome
          = .resolved ⟨maxIterationsResult,
              ⟨inTok + sumInputUsage responses i fuel,
                outTok + sumOutputUsage responses i fuel⟩,
              inter + fuel⟩
        ∧ (runLoop responses exec i fuel messages inTok outTok inter
            events).requests = i + fuel := by
  intro fuel
  induction fuel with
  | zero =>
    intro i messages inTok outTok inter events
    simp [runLoop, sumInputUsage, sumOutputUsage]
  | succ fuel ih =>
    intro i messages inTok outTok inter events
    have h1 := hne i
    have h2 := hnc i
    simp only [runLoop, h1, Bool.false_eq_true, if_false,
      executeTools_sequenceCompleted, h2]
    have h3 := ih (i + 1)
      (executeTools exec (processResponse (responses i)).2
        (messages
          ++ [(⟨"assistant", (processResponse (responses i)).1⟩ : Message)])).2
      (inTok + (responses i).usage.input_tokens)
      (outTok + (responses i).usage.output_tokens)
      (inter + 1)
      (if assistantTextOf (processResponse (responses i)).1 = "" then events
        else events
          ++ [.assistant (assistantTextOf (processResponse (responses i)).1)])
    refine ⟨?_, ?_⟩
    · refine h3.1.trans ?_
      simp only [Outcome.resolved.injEq, ToolAgentResult.mk.injEq,
        Tokens.mk.injEq, sumInputUsage, sumOutputUsage]
      refine ⟨trivial, ⟨by omega, by omega⟩, by omega⟩
    · refine h3.2.trans ?_
      omega

/-- C5. For every run whose model responses are always non-empty and whose
tool-call batches never name the completion tool, `toolAgent` issues
exactly `maxIterations` model requests (so at most the cap) and then
resolves successfully — it does not reject — with the maximum-iterations
sentinel result carrying the accumulated token totals and the interaction
count: every such run terminates. -/
theorem toolAgent_max_iterations_sentinel (initialPrompt : String)
    (responses : Nat → ModelResponse) (exec : Executor)
    (maxIterations : Nat)
    (hne : ∀ j, (responses j).content.isEmpty = false)
    (hnc : ∀ j, ((processResponse (responses j)).2.any
      (fun c => c.name == "sequenceComplete")) = false) :
    (toolAgent true initialPrompt responses exec maxIterations).outcome
        = .resolved ⟨maxIterationsResult,
            ⟨sumInputUsage responses 0 maxIterations,
              sumOutputUsage responses 0 maxIterations⟩,
            maxIterations⟩
      ∧ (toolAgent true initialPrompt responses exec maxIterations).requests
        = maxIterations := by
  have h := runLoop_no_completion responses exec hne hnc maxIterations 0
    [(⟨"user", [MsgContent.text initialPrompt]⟩ : Message)] 0 0 0
    [OutEvent.user initialPrompt]
  simpa [toolAgent] using h

/-- A model that always answers with plain text and fixed usage, never
calling any tool: the concrete provider used in witnesses. -/
def steadyResponses : Nat → ModelResponse := fun _ =>
  { content := [.text "working on it"]
    usage := { input_tokens := 3, output_tokens := 5 } }

/-- C5 witness: a two-iteration run against the steady text-only provider
reaches the cap with both hypotheses discharged concretely. -/
theorem toolAgent_max_iterations_sentinel_witness :
    ((∀ j, (steadyResponses j).content.isEmpty = false)
      ∧ (∀ j, ((processResponse (steadyResponses j)).2.any
          (fun c => c.name == "sequenceComplete")) = false))
    ∧ ((toolAgent true "task" steadyResponses (fun _ => .ok "") 2).outcome
          = .resolved ⟨maxIterationsResult,
              ⟨sumInputUsage steadyResponses 0 2,
                sumOutputUsage steadyResponses 0 2⟩, 2⟩
        ∧ (toolAgent true "task" steadyResponses (fun _ => .ok "") 2).requests
          = 2) :=
  ⟨⟨fun _ => rfl, fun _ => rfl⟩,
    toolAgent_max_iterations_sentinel "task" steadyResponses (fun _ => .ok "")
      2 (fun _ => rfl) (fun _ => rfl)⟩

/-- Specification helper: the sum of the reported input-token usages of
responses `lo, ..., lo+len-1`, counting only responses with non-empty
content (an empty response resolves the run before the accounting line
runs, so its usage is never added). -/
def countedInputUsage (responses : Nat → ModelResponse) (lo len : Nat) :
    Nat :=
  match len with
  | 0 => 0
  | len + 1 =>
    (if (responses lo).content.isEmpty then 0
      else (responses lo).usage.input_tokens)
      + countedInputUsage responses (lo + 1) len

/-- Specification helper: like `countedInputUsage`, for output tokens. -/
def countedOutputUsage (responses : Nat → ModelResponse) (lo len : Nat) :
    Nat :=
  match len with
  | 0 => 0
  | len + 1 =>
    (if (responses lo).content.isEmpty then 0
      else (responses lo).usage.output_tokens)
      + countedOutputUsage responses (lo + 1) len

/-- Every `runLoop` run resolves, issues `k ≤ fuel` further requests, and
its final token totals are the starting totals plus the usage of exactly
the non-empty responses among those `k`. -/
theorem runLoop_tokens (responses : Nat → ModelResponse) (exec : Executor) :
    ∀ fuel i messages inTok outTok inter events,
      ∃ k, k ≤ fuel
        ∧ (runLoop responses exec i fuel messages inTok outTok inter
            events).requests = i + k
        ∧ ∃ r, (runLoop responses exec i fuel messages inTok outTok inter
              events).outcome = .resolved r
            ∧ r.tokens.input = inTok + countedInputUsage responses i k
            ∧ r.tokens.output = outTok + countedOutputUsage responses i k := by
  intro fuel
  induction fuel with
  | zero =>
    intro i messages inTok outTok inter events
    refine ⟨0, Nat.le_refl 0, by simp [runLoop], ?_⟩
    exact ⟨⟨maxIterationsResult, ⟨inTok, outTok⟩, inter⟩,
      by simp [runLoop], by simp [countedInputUsage],
      by simp [countedOutputUsage]⟩
  | succ fuel ih =>
    intro i messages inTok outTok inter events
    by_cases hE : (responses i).content.isEmpty = true
    · refine ⟨1, by omega, by simp [runLoop, hE], ?_⟩
      refine ⟨⟨emptyResponseResult, ⟨inTok, outTok⟩, inter + 1⟩,
        by simp [runLoop, hE], ?_, ?_⟩
      · simp [countedInputUsage, hE]
      · simp [countedOutputUsage, hE]
    · have hE' : (responses i).content.isEmpty = false := by
        simpa using hE
      by_cases hC : (executeTools exec (processResponse (responses i)).2
          (messages
            ++ [(⟨"assistant",
              (processResponse (responses i)).1⟩ : Message)])).1.sequenceCompleted
          = true
      · refine ⟨1, by omega, by simp [runLoop, hE', hC], ?_⟩
        refine ⟨⟨((executeTools exec (processResponse (responses i)).2
            (messages
              ++ [(⟨"assistant",
                (processResponse (responses i)).1⟩ :
                Message)])).1.completionResult).getD emptyCompletionFallback,
          ⟨inTok + (responses i).usage.input_tokens,
            outTok + (responses i).usage.output_tokens⟩, inter + 1⟩,
          by simp [runLoop, hE', hC], ?_, ?_⟩
        · simp [countedInputUsage, hE']
        · simp [countedOutputUsage, hE']
      · have hC' : (executeTools exec (processResponse (responses i)).2
            (messages
              ++ [(⟨"assistant",
                (processResponse (responses i)).1⟩ :
                Message)])).1.sequenceCompleted = false := by
          simpa using hC
        obtain ⟨k, hk, hreq, r, ho, hin, hout⟩ := ih (i + 1)
          (executeTools exec (processResponse (responses i)).2
            (messages
              ++ [(⟨"assistant", (processResponse (responses i)).1⟩ :
                Message)])).2
          (inTok + (responses i).usage.input_tokens)
          (outTok + (responses i).usage.output_tokens)
          (inter + 1)
          (if assistantTextOf (processResponse (responses i)).1 = ""
            then events
            else events ++ [.assistant
              (assistantTextOf (processResponse (responses i)).1)])
        refine ⟨k + 1, by omega, ?_, r, ?_, ?_, ?_⟩
        · simp only [runLoop, hE', Bool.false_eq_true, if_false, hC']
          omega
        · simpa only [runLoop, hE', Bool.false_eq_true, if_false, hC']
            using ho
        · rw [hin]
          simp only [countedInputUsage, hE', Bool.false_eq_true, if_false]
          omega
        · rw [hout]
          simp only [countedOutputUsage, hE', Bool.false_eq_true, if_false]
          omega

/-- C4 counterexample. A run whose single response has empty content and
reported usage of 10 input / 10 output tokens: the run receives exactly
one response (`requests = 1`), the sum of the usage counts of the
responses received is 10, yet the final result's token totals are 0 —
because the empty-content early return at toolAgent.ts:243 precedes the
accumulation at line 259, the empty response's usage is never added,
contradicting the claim that every response's counts (including an empty
response's) enter the totals. -/
theorem toolAgent_empty_response_usage_dropped :
    ((toolAgent true "p" (fun _ => ⟨[], ⟨10, 10⟩⟩) (fun _ => .ok "") 5).outcome
        = .resolved ⟨emptyResponseResult, ⟨0, 0⟩, 1⟩)
    ∧ (toolAgent true "p" (fun _ => ⟨[], ⟨10, 10⟩⟩) (fun _ => .ok "") 5).requests
        = 1
    ∧ sumInputUsage (fun _ => (⟨[], ⟨10, 10⟩⟩ : ModelResponse)) 0 1 = 10
    ∧ (0 : Nat) ≠ 10 :=
  ⟨rfl, rfl, rfl, by decide⟩

/-- C4 amended. Every `toolAgent` run with the credential present resolves
with token totals equal to the summed usage of exactly the non-empty
responses among the responses received: each response whose content list
is non-empty has its reported input/output counts added to the running
totals, while a response with an empty content list ends the run before
the accounting step, so its usage is excluded from the final totals. -/
theorem toolAgent_token_accounting (initialPrompt : String)
    (responses : Nat → ModelResponse) (exec : Executor)
    (maxIterations : Nat) :
    ∃ r, (toolAgent true initialPrompt responses exec maxIterations).outcome
          = .resolved r
      ∧ r.tokens.input = countedInputUsage responses 0
          ((toolAgent true initialPrompt responses exec maxIterations).requests)
      ∧ r.tokens.output = countedOutputUsage responses 0
          ((toolAgent true initialPrompt responses exec maxIterations).requests) := by
  have hT : toolAgent true initialPrompt responses exec maxIterations
      = runLoop responses exec 0 maxIterations
          [(⟨"user", [MsgContent.text initialPrompt]⟩ : Message)] 0 0 0
          [OutEvent.user initialPrompt] := rfl
  obtain ⟨k, hk, hreq, r, ho, hin, hout⟩ := runLoop_tokens responses exec
    maxIterations 0 [(⟨"user", [MsgContent.text initialPrompt]⟩ : Message)]
    0 0 0 [OutEvent.user initialPrompt]
  have hreq' : (runLoop responses exec 0 maxIterations
      [(⟨"user", [MsgContent.text initialPrompt]⟩ : Message)] 0 0 0
      [OutEvent.user initialPrompt]).requests = k := by omega
  refine ⟨r, ?_, ?_, ?_⟩
  · rw [hT]; exact ho
  · rw [hT, hreq']; simpa using hin
  · rw [hT, hreq']; simpa using hout

/-- The `write` handler of the `inMessages` writable stream in
`toolAgent`: it only invokes the completion callback — the chunk is
discarded, nothing is recorded, and no state the loop could consult
exists ("Handle incoming messages (for future interactive features)"). -/
def inMessagesWrite (chunk : String) : Unit := ()

/-- A `toolAgent` run observed together with the control chunks (e.g.
abort signals) a caller writes to `inMessages`: each write runs
`inMessagesWrite`, then the run proceeds. -/
def toolAgentWithInbound (inbound : List String) (apiKeyPresent : Bool)
    (initialPrompt : String) (responses : Nat → ModelResponse)
    (exec : Executor) (maxIterations : Nat) : RunResult :=
  let _ := inbound.map inMessagesWrite
  toolAgent apiKeyPresent initialPrompt responses exec maxIterations

/-- C3 counterexample. An abort signal is written to the inbound control
channel before the loop's first check, against a provider that never
completes and a two-iteration cap: the loop still issues two model
requests — it does not exit at its next check — and the run ends with the
ordinary maximum-iterations resolution, not any cancelled outcome,
contradicting the claim that a written abort signal makes the next loop
check exit early without issuing a new model request. -/
theorem toolAgent_abort_signal_has_no_effect :
    (toolAgentWithInbound ["abort"] true "p" steadyResponses
        (fun _ => .ok "") 2).requests = 2
    ∧ (toolAgentWithInbound ["abort"] true "p" steadyResponses
        (fun _ => .ok "") 2).outcome
      = .resolved ⟨maxIterationsResult, ⟨6, 10⟩, 2⟩ :=
  ⟨rfl, rfl⟩

/-- C3 amended. Writing to the inbound control channel has no effect on
the run: the channel's write handler discards every chunk and the loop
consults no cancellation state, so the whole observable run — events,
outcome, request count, message history — is identical for any two
sequences of inbound writes (in particular, with and without an abort
signal); no cancelled outcome exists. -/
theorem toolAgent_inbound_independent (inbound other : List String)
    (apiKeyPresent : Bool) (initialPrompt : String)
    (responses : Nat → ModelResponse) (exec : Executor)
    (maxIterations : Nat) :
    toolAgentWithInbound inbound apiKeyPresent initialPrompt responses exec
        maxIterations
      = toolAgentWithInbound other apiKeyPresent initialPrompt responses exec
        maxIterations :=
  rfl

/-- `results.find` over the per-call results selects, in dispatch-result
order, the first call named after the completion tool, and yields that
call's result content. -/
theorem find?_isComplete_eq (exec : Executor) (l : List ToolUseContent) :
    ((l.map (runCall exec)).find? (fun r => r.isComplete)).map
        (fun r => r.content)
      = (l.find? (fun c => c.name == "sequenceComplete")).map
          (fun c => (runCall exec c).content) := by
  induction l with
  | nil => rfl
  | cons a l ih =>
    have hflag : (runCall exec a).isComplete = (a.name == "sequenceComplete") :=
      rfl
    rw [List.map_cons]
    simp only [List.find?, hflag]
    by_cases h : (a.name == "sequenceComplete") = true
    · rw [h]
      rfl
    · have h' : (a.name == "sequenceComplete") = false := by simpa using h
      rw [h']
      exact ih

/-- `completionResult` is the result content of the first call in the
batch named after the completion tool (dispatch-result order), when one
exists. -/
theorem executeTools_completionResult (exec : Executor)
    (toolCalls : List ToolUseContent) (messages : List Message) :
    (executeTools exec toolCalls messages).1.completionResult
      = (toolCalls.find? (fun c => c.name == "sequenceComplete")).map
          (fun c => (runCall exec c).content) := by
  unfold executeTools
  by_cases h : toolCalls.isEmpty
  · simp [h, List.isEmpty_iff.mp h]
  · simp only [h, Bool.false_eq_true, if_false]
    exact find?_isComplete_eq exec toolCalls

/-- If the batch dispatched at iteration `i` contains a call to the
completion tool — `c` being the first such call in dispatch order — the
loop resolves this iteration with that call's result content. -/
theorem runLoop_step_completes (responses : Nat → ModelResponse)
    (exec : Executor) (i fuel : Nat) (messages : List Message)
    (inTok outTok inter : Nat) (events : List OutEvent)
    (c : ToolUseContent)
    (hfind : (processResponse (responses i)).2.find?
      (fun c => c.name == "sequenceComplete") = some c) :
    ∃ r, (runLoop responses exec i (fuel + 1) messages inTok outTok inter
          events).outcome = .resolved r
      ∧ r.result = (runCall exec c).content := by
  have hmem := List.mem_of_find?_eq_some hfind
  have hpc := List.find?_some hfind
  have hne : (responses i).content.isEmpty = false := by
    cases hcontent : (responses i).content with
    | nil =>
      exfalso
      rw [show (processResponse (responses i)).2 = [] by
        simp [processResponse, hcontent]] at hfind
      exact Option.noConfusion hfind
    | cons b rest => rfl
  have hC : (executeTools exec (processResponse (responses i)).2
      (messages
        ++ [(⟨"assistant",
          (processResponse (responses i)).1⟩ : Message)])).1.sequenceCompleted
      = true := by
    rw [executeTools_sequenceCompleted]
    exact List.any_eq_true.mpr ⟨c, hmem, hpc⟩
  refine ⟨⟨((executeTools exec (processResponse (responses i)).2
      (messages
        ++ [(⟨"assistant",
          (processResponse (responses i)).1⟩ :
          Message)])).1.completionResult).getD emptyCompletionFallback,
    ⟨inTok + (responses i).usage.input_tokens,
      outTok + (responses i).usage.output_tokens⟩, inter + 1⟩, ?_, ?_⟩
  · simp only [runLoop, hne, Bool.false_eq_true, if_false, hC, if_true]
  · show ((executeTools exec (processResponse (responses i)).2
        (messages
          ++ [(⟨"assistant",
            (processResponse (responses i)).1⟩ :
            Message)])).1.completionResult).getD emptyCompletionFallback
      = (runCall exec c).content
    rw [executeTools_completionResult, hfind]
    rfl

/-- C6. When the batch dispatched at the first iteration carries more than
one completion-tool call, the orchestrator resolves with the result
content of the first of them in dispatch-result order (`results.find`),
and that content becomes the final answer verbatim. -/
theorem toolAgent_first_completion_wins (initialPrompt : String)
    (responses : Nat → ModelResponse) (exec : Executor)
    (maxIterations : Nat) (c : ToolUseContent)
    (hm : 0 < maxIterations)
    (hcount : 2 ≤ (processResponse (responses 0)).2.countP
      (fun c => c.name == "sequenceComplete"))
    (hfind : (processResponse (responses 0)).2.find?
      (fun c => c.name == "sequenceComplete") = some c) :
    ∃ r, (toolAgent true initialPrompt responses exec maxIterations).outcome
        = .resolved r
      ∧ r.result = (runCall exec c).content := by
  obtain ⟨m, rfl⟩ : ∃ m, maxIterations = m + 1 :=
    ⟨maxIterations - 1, by omega⟩
  exact runLoop_step_completes responses exec 0 m
    [(⟨"user", [MsgContent.text initialPrompt]⟩ : Message)] 0 0 0
    [OutEvent.user initialPrompt] c hfind

/-- A model whose every response carries two completion-tool calls with
distinct ids. -/
def twoCompletionResponses : Nat → ModelResponse := fun _ =>
  { content := [.tool_use "sequenceComplete" "a" "1",
      .tool_use "sequenceComplete" "b" "2"]
    usage := { input_tokens := 1, output_tokens := 1 } }

/-- An executor answering each call with a content derived from its id, so
the two completion results disagree. -/
def echoExec : Executor := fun c => .ok ("done-" ++ c.id)

/-- C6 witness: with two disagreeing simultaneous completion calls, the
run resolves with the first call's content, `"done-a"`. -/
theorem toolAgent_first_completion_wins_witness :
    (0 < 1
      ∧ 2 ≤ (processResponse (twoCompletionResponses 0)).2.countP
          (fun c => c.name == "sequenceComplete")
      ∧ (processResponse (twoCompletionResponses 0)).2.find?
          (fun c => c.name == "sequenceComplete")
        = some ⟨"sequenceComplete", "a", "1"⟩)
    ∧ (∃ r, (toolAgent true "task" twoCompletionResponses echoExec 1).outcome
          = .resolved r
        ∧ r.result = (runCall echoExec ⟨"sequenceComplete", "a", "1"⟩).content) :=
  ⟨⟨by decide, by decide, by decide⟩,
    toolAgent_first_completion_wins "task" twoCompletionResponses echoExec 1
      ⟨"sequenceComplete", "a", "1"⟩ (by decide) (by decide) (by decide)⟩

/-- One entry of a sub-agent's message mirror: role plus text content, as
pushed by `state.messages.push({role, content})`. -/
structure SubMsg where
  role : String
  content : String
deriving Repr, DecidableEq

/-- Modelled from the spec: `SubAgentState` lives in
`src/tools/interaction/subAgentState.ts`, which is not among the sources;
per the spec's SubAgentInstance data model and the fields
`subAgentMessage.ts` reads, it carries the original prompt, the message
history mirror and the one-way aborted flag. -/
structure SubAgentState where
  prompt : String
  messages : List SubMsg
  aborted : Bool
deriving Repr, DecidableEq

/-- The `subAgentStates` registry: instance identifier to state
(`Map.get` returning `undefined` for an unknown id becomes `none`). -/
def SubAgentStates : Type := String → Option SubAgentState

/-- Parameters of the `subAgentMessage` tool; `message` and `abort` are
optional in the zod schema. -/
structure SubAgentParams where
  instanceId : String
  message : Option String
  description : String
  abort : Option Bool
deriving Repr, DecidableEq

/-- Point update of the registry, the functional counterpart of mutating
the state object held in the map. -/
def updateState (states : SubAgentStates) (id : String)
    (st : SubAgentState) : SubAgentStates :=
  fun k => if k = id then some st else states k

/-- The `execute` function of `subAgentMessageTool` from
subAgentMessage.ts. `apiKeyPresent` is whether `ANTHROPIC_API_KEY` is set;
`subModel` is the oracle for `anthropic.messages.create` followed by the
`response.content?.[0]?.text` extraction (`none` models a response in
which that text is missing). Returns the settled result
(`Except.error` models a thrown error), the registry afterwards, and the
number of model requests made. Branch order mirrors the source: key
check, lookup, aborted check, abort handling, message-required check,
model call, mirror update. JavaScript truthiness makes `if (params.abort)`
fire only on `true` and `if (!params.message)` fire on a missing or empty
message. -/
def subAgentMessageExecute (apiKeyPresent : Bool)
    (subModel : List SubMsg → Option String) (states : SubAgentStates)
    (params : SubAgentParams) :
    Except String String × SubAgentStates × Nat :=
  if !apiKeyPresent then
    (.error "ANTHROPIC_API_KEY environment variable is not set", states, 0)
  else
    match states params.instanceId with
    | none => (.error "Sub-agent not found", states, 0)
    | some state =>
      if state.aborted then
        (.error "Sub-agent has been aborted", states, 0)
      else if params.abort = some true then
        (.ok "Sub-agent aborted",
          updateState states params.instanceId { state with aborted := true },
          0)
      else
        match params.message with
        | none => (.error "Message is required when not aborting", states, 0)
        | some m =>
          if m = "" then
            (.error "Message is required when not aborting", states, 0)
          else
            let request := (⟨"user", state.prompt⟩ : SubMsg)
              :: state.messages ++ [(⟨"user", m⟩ : SubMsg)]
            match subModel request with
            | none => (.error "Invalid response from Anthropic API", states, 1)
            | some responseText =>
              (.ok responseText,
                updateState states params.instanceId
                  { state with messages := state.messages
                      ++ [(⟨"user", m⟩ : SubMsg),
                        (⟨"assistant", responseText⟩ : SubMsg)] },
                1)

/-- C7. Once a sub-agent instance's aborted flag is set, every
`subAgentMessage` call addressed to that instance identifier (with the
credential present) rejects with the error `Sub-agent has been aborted`,
leaving the registry untouched and making no model request; and — across
every possible call, whatever its parameters or environment — an instance
whose aborted flag is `true` still has it `true` afterwards: no operation
resets the latch, so the rejection holds for all subsequent attempts. -/
theorem subAgentMessage_aborted_latch
    (subModel : List SubMsg → Option String) (states : SubAgentStates)
    (params : SubAgentParams) (st : SubAgentState)
    (hst : states params.instanceId = some st) (hab : st.aborted = true) :
    ((subAgentMessageExecute true subModel states params).1
        = .error "Sub-agent has been aborted"
      ∧ (subAgentMessageExecute true subModel states params).2.1 = states
      ∧ (subAgentMessageExecute true subModel states params).2.2 = 0)
    ∧ ∀ (k : Bool) (sm : List SubMsg → Option String)
        (sts : SubAgentStates) (q : SubAgentParams) (id : String)
        (s1 : SubAgentState), sts id = some s1 → s1.aborted = true →
        ∃ s2, (subAgentMessageExecute k sm sts q).2.1 id = some s2
          ∧ s2.aborted = true := by
  constructor
  · refine ⟨?_, ?_, ?_⟩ <;> simp [subAgentMessageExecute, hst, hab]
  · intro k sm sts q id s1 h1 h2
    unfold subAgentMessageExecute
    split
    · exact ⟨s1, h1, h2⟩
    · split
      · exact ⟨s1, h1, h2⟩
      · rename_i state hmatch
        split
        · exact ⟨s1, h1, h2⟩
        · rename_i hnab
          split
          · unfold updateState
            by_cases hid : id = q.instanceId
            · exact ⟨{ state with aborted := true }, by simp [hid], rfl⟩
            · exact ⟨s1, by simp [hid, h1], h2⟩
          · split
            · exact ⟨s1, h1, h2⟩
            · split
              · exact ⟨s1, h1, h2⟩
              · dsimp only
                split
                · exact ⟨s1, h1, h2⟩
                · unfold updateState
                  by_cases hid : id = q.instanceId
                  · exfalso
                    rw [hid, hmatch] at h1
                    have heq : s1 = state := Option.some.inj h1.symm
                    exact hnab (heq ▸ h2)
                  · exact ⟨s1, by simp [hid, h1], h2⟩

/-- The concrete registry used in sub-agent witnesses and counterexamples:
one already-aborted instance `agent_1`. -/
def abortedStates : SubAgentStates := fun id =>
  if id = "agent_1" then some ⟨"task", [], true⟩ else none

/-- C7 witness: sending a message to the aborted `agent_1` rejects, and
the latch persists across the call. -/
theorem subAgentMessage_aborted_latch_witness :
    (abortedStates "agent_1" = some ⟨"task", [], true⟩
      ∧ (⟨"task", [], true⟩ : SubAgentState).aborted = true)
    ∧ (((subAgentMessageExecute true (fun _ => none) abortedStates
          ⟨"agent_1", some "hello", "send a message", none⟩).1
        = .error "Sub-agent has been aborted"
      ∧ (subAgentMessageExecute true (fun _ => none) abortedStates
          ⟨"agent_1", some "hello", "send a message", none⟩).2.1
        = abortedStates
      ∧ (subAgentMessageExecute true (fun _ => none) abortedStates
          ⟨"agent_1", some "hello", "send a message", none⟩).2.2 = 0)
    ∧ ∀ (k : Bool) (sm : List SubMsg → Option String)
        (sts : SubAgentStates) (q : SubAgentParams) (id : String)
        (s1 : SubAgentState), sts id = some s1 → s1.aborted = true →
        ∃ s2, (subAgentMessageExecute k sm sts q).2.1 id = some s2
          ∧ s2.aborted = true) :=
  ⟨⟨rfl, rfl⟩,
    subAgentMessage_aborted_latch (fun _ => none) abortedStates
      ⟨"agent_1", some "hello", "send a message", none⟩
      ⟨"task", [], true⟩ rfl rfl⟩

/-- C8 counterexample. Aborting the already-aborted `agent_1`
(`abort = true`) does not succeed: the aborted check at
subAgentMessage.ts:53 precedes the abort handling at line 57, so the call
rejects with `Sub-agent has been aborted`, contradicting the claim that a
second abort succeeds without error. -/
theorem subAgentMessage_double_abort_rejects :
    (subAgentMessageExecute true (fun _ => none) abortedStates
        ⟨"agent_1", none, "abort again", some true⟩).1
      = .error "Sub-agent has been aborted" :=
  rfl

/-- C8 amended. Calling the abort operation on an already-aborted instance
rejects with the `Sub-agent has been aborted` error — the same rejection
any call to an aborted instance gets — while leaving the registry
unchanged and delivering nothing: no second abort signal, no model
request, and no state change; but it is a rejection, not an idempotent
success. -/
theorem subAgentMessage_double_abort
    (subModel : List SubMsg → Option String) (states : SubAgentStates)
    (params : SubAgentParams) (st : SubAgentState)
    (hst : states params.instanceId = some st) (hab : st.aborted = true)
    (habort : params.abort = some true) :
    (subAgentMessageExecute true subModel states params).1
        = .error "Sub-agent has been aborted"
      ∧ (subAgentMessageExecute true subModel states params).2.1 = states
      ∧ (subAgentMessageExecute true subModel states params).2.2 = 0 := by
  refine ⟨?_, ?_, ?_⟩ <;> simp [subAgentMessageExecute, hst, hab]

/-- C8 amended, witness: the double abort on `agent_1`. -/
theorem subAgentMessage_double_abort_witness :
    (abortedStates "agent_1" = some ⟨"task", [], true⟩
      ∧ (⟨"task", [], true⟩ : SubAgentState).aborted = true
      ∧ (⟨"agent_1", none, "abort again", some true⟩ :
          SubAgentParams).abort = some true)
    ∧ ((subAgentMessageExecute true (fun _ => none) abortedStates
          ⟨"agent_1", none, "abort again", some true⟩).1
        = .error "Sub-agent has been aborted"
      ∧ (subAgentMessageExecute true (fun _ => none) abortedStates
          ⟨"agent_1", none, "abort again", some true⟩).2.1 = abortedStates
      ∧ (subAgentMessageExecute true (fun _ => none) abortedStates
          ⟨"agent_1", none, "abort again", some true⟩).2.2 = 0) :=
  ⟨⟨rfl, rfl, rfl⟩,
    subAgentMessage_double_abort (fun _ => none) abortedStates
      ⟨"agent_1", none, "abort again", some true⟩ ⟨"task", [], true⟩
      rfl rfl rfl⟩

/-- C10. Calling `subAgentMessage` on an existing, non-aborted instance
with `abort` unset or `false` and no `message` field rejects with
`Message is required when not aborting`, makes no model request, and
leaves the registry — in particular the instance's message mirror —
unchanged. -/
theorem subAgentMessage_message_required
    (subModel : List SubMsg → Option String) (states : SubAgentStates)
    (params : SubAgentParams) (st : SubAgentState)
    (hst : states params.instanceId = some st) (hab : st.aborted = false)
    (habort : params.abort ≠ some true) (hmsg : params.message = none) :
    (subAgentMessageExecute true subModel states params).1
        = .error "Message is required when not aborting"
      ∧ (subAgentMessageExecute true subModel states params).2.1 = states
      ∧ (subAgentMessageExecute true subModel states params).2.2 = 0 := by
  refine ⟨?_, ?_, ?_⟩
    <;> simp [subAgentMessageExecute, hst, hab, habort, hmsg]

/-- A registry with one live (non-aborted) instance `agent_2`. -/
def liveStates : SubAgentStates := fun id =>
  if id = "agent_2" then some ⟨"task", [], false⟩ else none

/-- C10 witness: a messageless, non-aborting call to the live `agent_2`. -/
theorem subAgentMessage_message_required_witness :
    (liveStates "agent_2" = some ⟨"task", [], false⟩
      ∧ (⟨"task", [], false⟩ : SubAgentState).aborted = false
      ∧ (⟨"agent_2", none, "poke", none⟩ : SubAgentParams).abort ≠ some true
      ∧ (⟨"agent_2", none, "poke", none⟩ : SubAgentParams).message = none)
    ∧ ((subAgentMessageExecute true (fun _ => none) liveStates
          ⟨"agent_2", none, "poke", none⟩).1
        = .error "Message is required when not aborting"
      ∧ (subAgentMessageExecute true (fun _ => none) liveStates
          ⟨"agent_2", none, "poke", none⟩).2.1 = liveStates
      ∧ (subAgentMessageExecute true (fun _ => none) liveStates
          ⟨"agent_2", none, "poke", none⟩).2.2 = 0) :=
  ⟨⟨rfl, rfl, by decide, rfl⟩,
    subAgentMessage_message_required (fun _ => none) liveStates
      ⟨"agent_2", none, "poke", none⟩ ⟨"task", [], false⟩
      rfl rfl (by decide) rfl⟩

end Mycoder
